import Mathlib

/-!
Verification of the Filament Station scan-pairing core
(src/filament_station_starter.py).

The Python source is shallowly embedded as executable Lean definitions:
  * the SQLite tables `spools` and `logs` become lists of records inside a
    `DB` structure; the SQL statements of `upsert_spool`, `update_weight`,
    `update_location` and `get_spool_by_url` become list operations;
  * the Tk `App` object's mutable fields become an `AppState` structure and
    each handler becomes a state-transition function;
  * wall-clock instants (`time.time()` and `datetime.utcnow()`) are an
    idealized integer clock threaded through every handler as `now : ℤ`;
  * the camera debouncer inside `QRScanner.run` becomes a step function over
    an input stream of poll results, with rational time (the poll interval
    is `scan_interval_ms / 1000.0` seconds and the debounce sleep is 1 s);
  * Python string helpers used by the code (`strip`, `rstrip("/")`,
    `split("/")`, `replace("-", " ")`, `title()`) are modelled structurally
    over `List Char` (ASCII-faithful, which covers every payload the
    configuration and the scenarios use).
-/

namespace FilamentStation

/-! ### Python string helpers (modelled over `List Char`) -/

/-- One step of Python `str.title()`: an alphabetic character is uppercased
when the previous character was not alphabetic and lowercased otherwise. -/
def titleStep (acc : List Char × Bool) (c : Char) : List Char × Bool :=
  if c.isAlpha then
    ((if acc.2 then c.toLower else c.toUpper) :: acc.1, true)
  else
    (c :: acc.1, false)

/-- Python `str.title()` (ASCII model). -/
def pyTitle (s : List Char) : List Char :=
  (s.foldl titleStep ([], false)).1.reverse

/-- Python `str.rstrip(ch)`: drop trailing occurrences of `ch`. -/
def pyRstrip (ch : Char) (s : List Char) : List Char :=
  (s.reverse.dropWhile (fun c => c = ch)).reverse

/-- Python `str.split(sep)` for a one-character separator: keeps empty
fields, always returns at least one field. -/
def pySplit (sep : Char) : List Char → List (List Char)
  | [] => [[]]
  | c :: cs =>
    let rest := pySplit sep cs
    if c = sep then [] :: rest
    else
      match rest with
      | [] => [[c]]
      | f :: fs => (c :: f) :: fs

/-- Python `str.replace(old, new)` for one-character patterns. -/
def pyReplace (old new : Char) (s : List Char) : List Char :=
  s.map (fun c => if c = old then new else c)

/-- Python `str.strip()` with no argument: remove leading and trailing
whitespace. -/
def pyStrip (s : String) : String :=
  String.mk ((((s.data.dropWhile Char.isWhitespace).reverse.dropWhile
      Char.isWhitespace)).reverse)

/-- The default display-name guess in `App.handle_spool_scan`:
`url.rstrip("/").split("/")[-1].replace("-", " ").title()`. -/
def derive_spool_name (url : String) : String :=
  String.mk (pyTitle (pyReplace '-' ' '
    ((pySplit '/' (pyRstrip '/' url.data)).getLastD [])))

/-- Python truthiness of an optional string (`None` and `""` are falsy),
used by the `any([name, material, color])` test in `upsert_spool`. -/
def pyTruthyStr : Option String → Bool
  | none => false
  | some s => s ≠ ""

/-! ### Data model: SQLite tables of `filament_station_starter.py` -/

/-- A row of the `spools` table. -/
structure Spool where
  id : Nat
  url : String
  name : Option String
  material : Option String
  color : Option String
  location : Option String
  last_weight_g : Option ℚ
  last_updated : Option ℤ
deriving Repr, DecidableEq

/-- A row of the `logs` table (the autoincrement log id is not modelled;
rows are kept in insertion order). -/
structure LogEntry where
  spool_id : Nat
  timestamp : ℤ
  action : String
  weight_g : Option ℚ
  location : Option String
  note : Option String
deriving Repr, DecidableEq

/-- The SQLite database: both tables plus the next `spools` autoincrement
id. -/
structure DB where
  spools : List Spool
  logs : List LogEntry
  next_id : Nat
deriving Repr, DecidableEq

/-- The freshly initialised database (`init_db`): empty tables, the
autoincrement counter starts at 1. -/
def DB.init : DB := ⟨[], [], 1⟩

/-- Embeds `get_spool_by_url`: `SELECT * FROM spools WHERE url = ?` with
`fetchone`, i.e. the first row whose `url` matches. -/
def get_spool_by_url (db : DB) (url : String) : Option Spool :=
  db.spools.find? (fun r => r.url == url)

/-- Embeds `upsert_spool`: insert a new row (location, weight, last_updated all
NULL) when the url is unseen, else conditionally COALESCE-update the
metadata columns; returns the new database and the spool id. -/
def upsert_spool (db : DB) (url : String)
    (name material color : Option String) : DB × Nat :=
  match get_spool_by_url db url with
  | none =>
    ({ spools := db.spools ++
         [⟨db.next_id, url, name, material, color, none, none, none⟩],
       logs := db.logs, next_id := db.next_id + 1 }, db.next_id)
  | some row =>
    if pyTruthyStr name || pyTruthyStr material || pyTruthyStr color then
      ({ spools := db.spools.map (fun r =>
           if r.id = row.id then
             { r with name := name <|> r.name,
                      material := material <|> r.material,
                      color := color <|> r.color }
           else r),
         logs := db.logs, next_id := db.next_id }, row.id)
    else (db, row.id)

/-- The log row inserted by `update_weight`. -/
def weighLog (sid : Nat) (ts : ℤ) (w : ℚ) : LogEntry :=
  ⟨sid, ts, "weigh", some w, none, none⟩

/-- The log row inserted by `update_location` (and, with the same column
values, by `App.log_action("move", ...)`). -/
def moveLog (sid : Nat) (ts : ℤ) (loc : String) : LogEntry :=
  ⟨sid, ts, "move", none, some loc, none⟩

/-- Embeds `update_weight`: set `last_weight_g` and `last_updated`, then insert a
`weigh` log row. `ts` stands for `datetime.utcnow()`. -/
def update_weight (db : DB) (sid : Nat) (w : ℚ) (ts : ℤ) : DB :=
  { spools := db.spools.map (fun r =>
      if r.id = sid then { r with last_weight_g := some w, last_updated := some ts }
      else r),
    logs := db.logs ++ [weighLog sid ts w],
    next_id := db.next_id }

/-- Embeds `update_location`: set `location` and `last_updated`, then insert a
`move` log row. `ts` stands for `datetime.utcnow()`. -/
def update_location (db : DB) (sid : Nat) (loc : String) (ts : ℤ) : DB :=
  { spools := db.spools.map (fun r =>
      if r.id = sid then { r with location := some loc, last_updated := some ts }
      else r),
    logs := db.logs ++ [moveLog sid ts loc],
    next_id := db.next_id }

/-! ### Configuration and classifier -/

/-- One entry of the `locations` list in the configuration. -/
structure LocEntry where
  qr : String
  name : String
deriving Repr, DecidableEq

/-- The configuration fields the core reads (`locations` and
`pair_window_seconds`). -/
structure Config where
  locations : List LocEntry
  pair_window_seconds : ℤ
deriving Repr, DecidableEq

/-- The `locations` list and pairing window of `DEFAULT_CONFIG`. -/
def defaultConfig : Config :=
  { locations :=
      [⟨"fs://loc/pla-a", "PLA Dry Box A"⟩,
       ⟨"fs://loc/petg-b", "PETG Dry Box B"⟩,
       ⟨"fs://loc/tpu-c", "TPU Dry Box C"⟩,
       ⟨"fs://loc/ams-1", "AMS Slot 1"⟩,
       ⟨"fs://loc/ams-2", "AMS Slot 2"⟩,
       ⟨"fs://loc/ams-3", "AMS Slot 3"⟩,
       ⟨"fs://loc/ams-4", "AMS Slot 4"⟩,
       ⟨"fs://loc/dryer", "Dryer"⟩],
    pair_window_seconds := 10 }

/-- The classification result of `classify_qr_payload`: the tuple
`("location", name)` or `("spool", payload)`. -/
inductive ScanEvent where
  | location (name : String)
  | spool (payload : String)
deriving Repr, DecidableEq

/-- Embeds `classify_qr_payload`: walk the configured locations in order and
return the first exact QR match as a location; otherwise the payload is a
spool identifier. -/
def classify_qr_payload (locs : List LocEntry) (payload : String) : ScanEvent :=
  match locs with
  | [] => .spool payload
  | loc :: rest =>
    if payload = loc.qr then .location loc.name
    else classify_qr_payload rest payload

/-! ### The App state machine -/

/-- The mutable fields of the Tk `App` object that the scan-pairing core
reads and writes, plus the database it talks to.  `status` is the
`var_status` status line. -/
structure AppState where
  db : DB
  current_url : Option String
  current_spool : Option Spool
  last_spool_scan_ts : ℤ
  last_location_scan : Option (String × ℤ)
  status : String
deriving Repr, DecidableEq

/-- The state right after `App.__init__` over a fresh database. -/
def AppState.init : AppState :=
  { db := DB.init, current_url := none, current_spool := none,
    last_spool_scan_ts := 0, last_location_scan := none,
    status := "Ready. Scan a spool." }

/-- Embeds `App.log_action`: append a log row for the current spool; silently does
nothing when no spool is current. -/
def log_action (now : ℤ) (action : String) (weight_g : Option ℚ)
    (location note : Option String) (s : AppState) : AppState :=
  match s.current_spool with
  | none => s
  | some sp =>
    { s with db := { s.db with
        logs := s.db.logs ++ [⟨sp.id, now, action, weight_g, location, note⟩] } }

/-- Embeds `App.apply_location_move`: with a current spool, persist the location
change, re-read the spool row, set the status line, append the app-level
`move` log row, and clear `last_location_scan`; with no current spool,
return unchanged. -/
def apply_location_move (now : ℤ) (loc_name : String) (s : AppState) : AppState :=
  match s.current_spool with
  | none => s
  | some sp =>
    let db1 := update_location s.db sp.id loc_name now
    let s1 : AppState :=
      { s with db := db1, current_spool := get_spool_by_url db1 sp.url,
               status := "✅ Moved to: " ++ loc_name }
    let s2 := log_action now "move" none (some loc_name) none s1
    { s2 with last_location_scan := none }

/-- The body of `App.handle_spool_scan` before its pairing check: resolve
or create the spool record, set `current_url`, `current_spool` and
`last_spool_scan_ts`, append the `scan` log row, set the status line. -/
def spool_scan_core (now : ℤ) (url : String) (s : AppState) : AppState :=
  let resolved : DB × Option Spool :=
    match get_spool_by_url s.db url with
    | some sp => (s.db, some sp)
    | none =>
      let guess := derive_spool_name url
      let db1 := (upsert_spool s.db url (some guess) none none).1
      (db1, get_spool_by_url db1 url)
  let s1 : AppState :=
    { s with db := resolved.1, current_url := some url,
             current_spool := resolved.2, last_spool_scan_ts := now }
  let s2 := log_action now "scan" none none
    (some ("Scanned spool: " ++ url)) s1
  { s2 with status := "Spool scanned. (Scan a location to move it.)" }

/-- Embeds `App.handle_spool_scan`: the scan body followed by the pairing check
against a fresh `last_location_scan` (inclusive window bound). -/
def handle_spool_scan (cfg : Config) (now : ℤ) (url : String)
    (s : AppState) : AppState :=
  let s3 := spool_scan_core now url s
  match s3.last_location_scan with
  | none => s3
  | some (loc_name, loc_ts) =>
    if now - loc_ts ≤ cfg.pair_window_seconds then
      apply_location_move now loc_name s3
    else s3

/-- Embeds `App.handle_location_scan`: record the location scan and status, then
run the pairing check against a fresh spool scan (inclusive window
bound). -/
def handle_location_scan (cfg : Config) (now : ℤ) (loc_name : String)
    (s : AppState) : AppState :=
  let s1 : AppState :=
    { s with last_location_scan := some (loc_name, now),
             status := "Location scanned: " ++ loc_name ++
               ". (Scan spool to move.)" }
  if s1.current_spool.isSome ∧
      now - s1.last_spool_scan_ts ≤ cfg.pair_window_seconds then
    apply_location_move now loc_name s1
  else s1

/-- Embeds `App.on_qr`: classify the payload and dispatch to the matching
handler. -/
def on_qr (cfg : Config) (now : ℤ) (payload : String) (s : AppState) : AppState :=
  match classify_qr_payload cfg.locations payload with
  | .spool value => handle_spool_scan cfg now value s
  | .location name => handle_location_scan cfg now name s

/-- Embeds `App.on_weigh`: with a current spool and an entered weight, persist the
weight, re-read the spool row and set the status; the dialog returning
`None` (cancel) or the absence of a current spool leave the state
unchanged. -/
def on_weigh (now : ℤ) (val : Option ℚ) (s : AppState) : AppState :=
  match s.current_spool with
  | none => s
  | some sp =>
    match val with
    | none => s
    | some v =>
      let db1 := update_weight s.db sp.id v now
      { s with db := db1, current_spool := get_spool_by_url db1 sp.url,
               status := "Weight updated." }

/-- Embeds `App.on_move` (the manual "Move Location" button): with a current spool
and a chosen location, persist the location change, re-read the spool row
and set the status.  Note: unlike `apply_location_move` it neither appends
the app-level `move` log row nor clears `last_location_scan`. -/
def on_move (now : ℤ) (choice : Option String) (s : AppState) : AppState :=
  match s.current_spool with
  | none => s
  | some sp =>
    match choice with
    | none => s
    | some c =>
      let db1 := update_location s.db sp.id c now
      { s with db := db1, current_spool := get_spool_by_url db1 sp.url,
               status := "Moved to: " ++ c }

/-- Embeds `App.manual_url`: a non-empty entered string is stripped and handled
exactly as a spool scan at the current time; cancel or an empty string do
nothing. -/
def manual_url (cfg : Config) (now : ℤ) (input : Option String)
    (s : AppState) : AppState :=
  match input with
  | none => s
  | some u =>
    if u ≠ "" then handle_spool_scan cfg now (pyStrip u) s else s

/-! ### The camera debouncer (`QRScanner.run`) -/

/-- The loop-carried state of `QRScanner.run`: `last_val` and `same_count`
plus the current instant (seconds, rational: the poll interval is
`scan_interval_ms / 1000.0`). -/
structure DebState where
  last_val : Option String
  same_count : Nat
  time : ℚ
deriving Repr, DecidableEq

/-- One iteration of the polling loop of `QRScanner.run` on one poll
result (`none`: failed read or no code in the frame; `some d`: a decoded,
stripped payload `d`).  Returns the next state and the emission, if any.
An emitting iteration sleeps the 1-second debounce in addition to the poll
interval. -/
def debounce_step (interval : ℚ) (s : DebState) (frame : Option String) :
    DebState × Option (String × ℚ) :=
  match frame with
  | none => ({ s with time := s.time + interval }, none)
  | some data =>
    let lv_sc : Option String × Nat :=
      if some data = s.last_val then (s.last_val, s.same_count + 1)
      else (some data, 1)
    if 2 ≤ lv_sc.2 then
      (⟨lv_sc.1, lv_sc.2, s.time + 1 + interval⟩, some (data, s.time))
    else
      (⟨lv_sc.1, lv_sc.2, s.time + interval⟩, none)

/-- The polling loop of `QRScanner.run` over a finite prefix of poll
results: the final state and the list of emissions with their instants. -/
def debounce_run (interval : ℚ) (s : DebState) :
    List (Option String) → DebState × List (String × ℚ)
  | [] => (s, [])
  | f :: fs =>
    let step := debounce_step interval s f
    let rest := debounce_run interval step.1 fs
    (rest.1, step.2.toList ++ rest.2)

/-- The debouncer state at thread start: nothing seen yet. -/
def DebState.start (t0 : ℚ) : DebState := ⟨none, 0, t0⟩

/-! ### Observables used by the claims -/

/-- The `move` rows of the log, in order. -/
def moveEntries (db : DB) : List LogEntry :=
  db.logs.filter (fun e => e.action == "move")

/-- The two scans under consideration produced an automatic move: the move
pair (the persistence-layer row and the app-level row) for location `loc`
at instant `t` was appended to the log, and the in-memory current spool now
carries that location with a fresh last-updated instant. -/
def autoMoveTo (s s1 : AppState) (loc : String) (t : ℤ) : Prop :=
  (∃ sid, moveEntries s1.db = moveEntries s.db ++ [moveLog sid t loc, moveLog sid t loc]) ∧
  ∃ r, s1.current_spool = some r ∧ r.location = some loc ∧ r.last_updated = some t

/-- No automatic move was produced between the two states: the `move` rows
of the log are unchanged. -/
def noAutoMove (s s1 : AppState) : Prop := moveEntries s1.db = moveEntries s.db

/-! ### Concrete scenario states (used by closed theorems below) -/

/-- The §8 Dryer scenario, after the spool QR at t = 0. -/
def dryerScenario1 : AppState :=
  on_qr defaultConfig 0 "fs://spool/abc-123" AppState.init

/-- The §8 Dryer scenario, after the location QR `fs://loc/dryer` at t = 5. -/
def dryerScenario2 : AppState :=
  on_qr defaultConfig 5 "fs://loc/dryer" dryerScenario1

/-- The §8 weigh scenario, after the unseen spool scan at t = 0. -/
def weighScenario1 : AppState :=
  handle_spool_scan defaultConfig 0 "fs://spool/abc-123" AppState.init

/-- The §8 weigh scenario, after the manual weigh of 250 g at t = 7. -/
def weighScenario2 : AppState := on_weigh 7 (some 250) weighScenario1

/-- Manual-move scenario: spool scanned at t = 0. -/
def manualMoveScenario1 : AppState :=
  handle_spool_scan defaultConfig 0 "fs://spool/abc-123" AppState.init

/-- Manual-move scenario: a location scanned at t = 20, outside the
window, so it stays pending in `last_location_scan`. -/
def manualMoveScenario2 : AppState :=
  handle_location_scan defaultConfig 20 "AMS Slot 1" manualMoveScenario1

/-- Manual-move scenario: the manual "Move Location" action at t = 25 with
choice "Dryer". -/
def manualMoveScenario3 : AppState :=
  on_move 25 (some "Dryer") manualMoveScenario2

/-! ### Helper lemmas -/

lemma get_spool_by_url_update_location (db : DB) (sid : Nat) (loc : String)
    (ts : ℤ) (url : String) :
    get_spool_by_url (update_location db sid loc ts) url =
      (get_spool_by_url db url).map (fun r =>
        if r.id = sid then { r with location := some loc, last_updated := some ts }
        else r) := by
  simp only [get_spool_by_url, update_location, List.find?_map]
  have hpf : ((fun r : Spool => r.url == url) ∘ (fun r : Spool =>
      if r.id = sid then { r with location := some loc, last_updated := some ts }
      else r)) = (fun r : Spool => r.url == url) := by
    funext r
    by_cases h : r.id = sid <;> simp [h, Function.comp]
  rw [hpf]

lemma get_spool_by_url_update_weight (db : DB) (sid : Nat) (w : ℚ)
    (ts : ℤ) (url : String) :
    get_spool_by_url (update_weight db sid w ts) url =
      (get_spool_by_url db url).map (fun r =>
        if r.id = sid then { r with last_weight_g := some w, last_updated := some ts }
        else r) := by
  simp only [get_spool_by_url, update_weight, List.find?_map]
  have hpf : ((fun r : Spool => r.url == url) ∘ (fun r : Spool =>
      if r.id = sid then { r with last_weight_g := some w, last_updated := some ts }
      else r)) = (fun r : Spool => r.url == url) := by
    funext r
    by_cases h : r.id = sid <;> simp [h, Function.comp]
  rw [hpf]

lemma get_spool_by_url_upsert_new (db : DB) (url : String)
    (nm mt cl : Option String) (h : get_spool_by_url db url = none) :
    get_spool_by_url (upsert_spool db url nm mt cl).1 url =
      some ⟨db.next_id, url, nm, mt, cl, none, none, none⟩ := by
  unfold upsert_spool
  rw [h]
  unfold get_spool_by_url at h ⊢
  simp [List.find?_append, h]

lemma get_spool_by_url_congr {db db1 : DB} (h : db1.spools = db.spools)
    (url : String) : get_spool_by_url db1 url = get_spool_by_url db url := by
  unfold get_spool_by_url
  rw [h]

/-- Full characterization of `apply_location_move` when the current spool
is set and is the first database row with its url. -/
lemma apply_location_move_eq (now : ℤ) (ln : String) (s : AppState) (sp : Spool)
    (hc : s.current_spool = some sp) (hg : get_spool_by_url s.db sp.url = some sp) :
    apply_location_move now ln s =
      { db := { spools := s.db.spools.map (fun r =>
                  if r.id = sp.id then
                    { r with location := some ln, last_updated := some now }
                  else r),
                logs := s.db.logs ++ [moveLog sp.id now ln, moveLog sp.id now ln],
                next_id := s.db.next_id },
        current_url := s.current_url,
        current_spool := some { sp with location := some ln, last_updated := some now },
        last_spool_scan_ts := s.last_spool_scan_ts,
        last_location_scan := none,
        status := "✅ Moved to: " ++ ln } := by
  have hre : get_spool_by_url (update_location s.db sp.id ln now) sp.url =
      some { sp with location := some ln, last_updated := some now } := by
    rw [get_spool_by_url_update_location, hg]
    simp
  simp only [apply_location_move, hc]
  rw [hre]
  simp only [log_action]
  simp [update_location, moveLog, List.append_assoc]

/-- The function `apply_location_move` is the identity when no spool is current. -/
lemma apply_location_move_no_spool (now : ℤ) (ln : String) (s : AppState)
    (hc : s.current_spool = none) : apply_location_move now ln s = s := by
  simp only [apply_location_move, hc]

/-- The log row appended by the `scan` branch of `handle_spool_scan`. -/
def scanLog (sid : Nat) (ts : ℤ) (url : String) : LogEntry :=
  ⟨sid, ts, "scan", none, none, some ("Scanned spool: " ++ url)⟩

/-- Characterization of the scan body of `handle_spool_scan`: it always
ends with a current spool whose url is the scanned one and which is the
first matching row of the resulting database, a fresh spool-scan
timestamp, exactly one appended `scan` log row, and an untouched
`last_location_scan`. -/
lemma spool_scan_core_eq (now : ℤ) (url : String) (s : AppState) :
    ∃ (sp : Spool) (rows : List Spool) (nid : Nat),
      sp.url = url ∧
      rows.find? (fun r => r.url == url) = some sp ∧
      spool_scan_core now url s =
        { db := { spools := rows,
                  logs := s.db.logs ++ [scanLog sp.id now url],
                  next_id := nid },
          current_url := some url,
          current_spool := some sp,
          last_spool_scan_ts := now,
          last_location_scan := s.last_location_scan,
          status := "Spool scanned. (Scan a location to move it.)" } := by
  cases h : get_spool_by_url s.db url with
  | some sp =>
    refine ⟨sp, s.db.spools, s.db.next_id, ?_, h, ?_⟩
    · have := List.find?_some h
      simpa using this
    · simp only [spool_scan_core, h, log_action, scanLog]
  | none =>
    have h1 : List.find? (fun r : Spool => r.url == url) s.db.spools = none := by
      simpa [get_spool_by_url] using h
    have h2 := get_spool_by_url_upsert_new s.db url
      (some (derive_spool_name url)) none none h
    refine ⟨⟨s.db.next_id, url, some (derive_spool_name url), none, none,
        none, none, none⟩, s.db.spools ++
        [⟨s.db.next_id, url, some (derive_spool_name url), none, none,
          none, none, none⟩], s.db.next_id + 1, rfl, ?_, ?_⟩
    · rw [List.find?_append, h1]
      simp
    · simp only [spool_scan_core, h]
      rw [h2]
      simp only [upsert_spool, h, log_action, scanLog]

lemma handle_spool_scan_no_pending (cfg : Config) (now : ℤ) (url : String)
    (s : AppState) (h : s.last_location_scan = none) :
    handle_spool_scan cfg now url s = spool_scan_core now url s := by
  obtain ⟨sp, rows, nid, _, _, hcore⟩ := spool_scan_core_eq now url s
  simp only [handle_spool_scan]
  rw [hcore]
  simp [h]

lemma handle_spool_scan_pair (cfg : Config) (now : ℤ) (url : String)
    (s : AppState) (ln : String) (lt : ℤ)
    (h : s.last_location_scan = some (ln, lt))
    (hw : now - lt ≤ cfg.pair_window_seconds) :
    handle_spool_scan cfg now url s =
      apply_location_move now ln (spool_scan_core now url s) := by
  obtain ⟨sp, rows, nid, _, _, hcore⟩ := spool_scan_core_eq now url s
  simp only [handle_spool_scan]
  rw [hcore]
  simp [h, hw]

lemma handle_spool_scan_stale (cfg : Config) (now : ℤ) (url : String)
    (s : AppState) (ln : String) (lt : ℤ)
    (h : s.last_location_scan = some (ln, lt))
    (hw : ¬(now - lt ≤ cfg.pair_window_seconds)) :
    handle_spool_scan cfg now url s = spool_scan_core now url s := by
  obtain ⟨sp, rows, nid, _, _, hcore⟩ := spool_scan_core_eq now url s
  simp only [handle_spool_scan]
  rw [hcore]
  simp [h, hw]

lemma handle_location_scan_pair (cfg : Config) (now : ℤ) (ln : String)
    (s : AppState) (hc : s.current_spool.isSome)
    (hw : now - s.last_spool_scan_ts ≤ cfg.pair_window_seconds) :
    handle_location_scan cfg now ln s =
      apply_location_move now ln
        { s with last_location_scan := some (ln, now),
                 status := "Location scanned: " ++ ln ++
                   ". (Scan spool to move.)" } := by
  simp only [handle_location_scan]
  rw [if_pos]
  exact ⟨hc, hw⟩

lemma handle_location_scan_no_pair (cfg : Config) (now : ℤ) (ln : String)
    (s : AppState)
    (h : ¬(s.current_spool.isSome ∧
        now - s.last_spool_scan_ts ≤ cfg.pair_window_seconds)) :
    handle_location_scan cfg now ln s =
      { s with last_location_scan := some (ln, now),
               status := "Location scanned: " ++ ln ++
                 ". (Scan spool to move.)" } := by
  simp only [handle_location_scan]
  rw [if_neg]
  exact h

lemma moveEntries_logs_append (db db1 : DB) (l : List LogEntry)
    (h : db1.logs = db.logs ++ l) :
    moveEntries db1 = moveEntries db ++ l.filter (fun e => e.action == "move") := by
  simp [moveEntries, h]

lemma filter_scanLog (sid : Nat) (ts : ℤ) (url : String) :
    [scanLog sid ts url].filter (fun e => e.action == "move") = [] := by
  simp [scanLog]

lemma filter_moveLog_pair (sid : Nat) (ts : ℤ) (ln : String) :
    [moveLog sid ts ln, moveLog sid ts ln].filter (fun e => e.action == "move") =
      [moveLog sid ts ln, moveLog sid ts ln] := by
  simp [moveLog]

/-- After any spool scan the current spool is set, is the first database
row with its url, and the spool-scan timestamp is the scan instant. -/
lemma handle_spool_scan_out (cfg : Config) (now : ℤ) (url : String)
    (s : AppState) :
    ∃ sp : Spool,
      (handle_spool_scan cfg now url s).current_spool = some sp ∧
      get_spool_by_url (handle_spool_scan cfg now url s).db sp.url = some sp ∧
      (handle_spool_scan cfg now url s).last_spool_scan_ts = now := by
  obtain ⟨sp, rows, nid, hurl, hfind, hcore⟩ := spool_scan_core_eq now url s
  have hg3 : get_spool_by_url (spool_scan_core now url s).db sp.url = some sp := by
    rw [hcore]
    unfold get_spool_by_url
    rw [hurl]
    exact hfind
  have hc3 : (spool_scan_core now url s).current_spool = some sp := by
    rw [hcore]
  cases hll : s.last_location_scan with
  | none =>
    rw [handle_spool_scan_no_pending cfg now url s hll]
    refine ⟨sp, hc3, hg3, ?_⟩
    rw [hcore]
  | some p =>
    obtain ⟨ln, lt⟩ := p
    by_cases hw : now - lt ≤ cfg.pair_window_seconds
    · rw [handle_spool_scan_pair cfg now url s ln lt hll hw]
      rw [apply_location_move_eq now ln _ sp hc3 hg3]
      refine ⟨{ sp with location := some ln, last_updated := some now }, rfl, ?_, ?_⟩
      · have : get_spool_by_url (update_location (spool_scan_core now url s).db
            sp.id ln now) sp.url =
            some { sp with location := some ln, last_updated := some now } := by
          rw [get_spool_by_url_update_location, hg3]
          simp
        rw [← this]
        rfl
      · rw [hcore]
    · rw [handle_spool_scan_stale cfg now url s ln lt hll hw]
      refine ⟨sp, hc3, hg3, ?_⟩
      rw [hcore]

/-- A location scan that finds a fresh, database-consistent current spool
performs the move: it updates the spool row, appends the move pair to the
log, refreshes the in-memory spool and clears the pending location scan. -/
lemma location_pair_move (cfg : Config) (now : ℤ) (ln : String)
    (s : AppState) (sp : Spool)
    (hc : s.current_spool = some sp)
    (hg : get_spool_by_url s.db sp.url = some sp)
    (hw : now - s.last_spool_scan_ts ≤ cfg.pair_window_seconds) :
    (handle_location_scan cfg now ln s).db.logs =
        s.db.logs ++ [moveLog sp.id now ln, moveLog sp.id now ln] ∧
    (handle_location_scan cfg now ln s).current_spool =
        some { sp with location := some ln, last_updated := some now } ∧
    get_spool_by_url (handle_location_scan cfg now ln s).db sp.url =
        some { sp with location := some ln, last_updated := some now } ∧
    (handle_location_scan cfg now ln s).last_location_scan = none ∧
    (handle_location_scan cfg now ln s).last_spool_scan_ts =
        s.last_spool_scan_ts ∧
    (handle_location_scan cfg now ln s).db.spools =
        s.db.spools.map (fun r =>
          if r.id = sp.id then { r with location := some ln, last_updated := some now }
          else r) := by
  have hsome : s.current_spool.isSome := by rw [hc]; rfl
  rw [handle_location_scan_pair cfg now ln s hsome hw]
  have hc1 : ({ s with last_location_scan := some (ln, now),
                       status := "Location scanned: " ++ ln ++
                         ". (Scan spool to move.)" } : AppState).current_spool =
      some sp := hc
  have hg1 : get_spool_by_url
      ({ s with last_location_scan := some (ln, now),
                status := "Location scanned: " ++ ln ++
                  ". (Scan spool to move.)" } : AppState).db sp.url =
      some sp := hg
  rw [apply_location_move_eq now ln _ sp hc1 hg1]
  refine ⟨rfl, rfl, ?_, rfl, rfl, rfl⟩
  have hupd : get_spool_by_url (update_location s.db sp.id ln now) sp.url =
      some { sp with location := some ln, last_updated := some now } := by
    rw [get_spool_by_url_update_location, hg]
    simp
  rw [← hupd]
  rfl

/-- A completed move always clears the pending location scan. -/
lemma apply_location_move_clears (now : ℤ) (ln : String) (s : AppState)
    (sp : Spool) (hc : s.current_spool = some sp) :
    (apply_location_move now ln s).last_location_scan = none := by
  simp only [apply_location_move, hc]

/-- A spool scan with no pending location scan performs no move. -/
lemma spool_scan_no_location_noMove (cfg : Config) (t : ℤ) (url : String)
    (s : AppState) (h : s.last_location_scan = none) :
    noAutoMove s (handle_spool_scan cfg t url s) := by
  rw [handle_spool_scan_no_pending cfg t url s h]
  obtain ⟨sp, rows, nid, _, _, hcore⟩ := spool_scan_core_eq t url s
  have hl3 : (spool_scan_core t url s).db.logs =
      s.db.logs ++ [scanLog sp.id t url] := by
    rw [hcore]
  unfold noAutoMove
  rw [moveEntries_logs_append _ _ _ hl3, filter_scanLog, List.append_nil]

/-- A spool scan that finds a pending location scan inside the window
performs the move to that location and clears the pending location
scan. -/
lemma spool_scan_pairs_fresh_location (cfg : Config) (t : ℤ) (url : String)
    (s : AppState) (ln : String) (lt : ℤ)
    (hll : s.last_location_scan = some (ln, lt))
    (hw : t - lt ≤ cfg.pair_window_seconds) :
    autoMoveTo s (handle_spool_scan cfg t url s) ln t ∧
    (handle_spool_scan cfg t url s).last_location_scan = none := by
  obtain ⟨sp, rows, nid, hurl, hfind, hcore⟩ := spool_scan_core_eq t url s
  have hg3 : get_spool_by_url (spool_scan_core t url s).db sp.url = some sp := by
    rw [hcore]
    unfold get_spool_by_url
    rw [hurl]
    exact hfind
  have hc3 : (spool_scan_core t url s).current_spool = some sp := by
    rw [hcore]
  rw [handle_spool_scan_pair cfg t url s ln lt hll hw]
  rw [apply_location_move_eq t ln _ sp hc3 hg3]
  refine ⟨⟨⟨sp.id, ?_⟩, ⟨_, rfl, rfl, rfl⟩⟩, rfl⟩
  have hlogs2 : ((spool_scan_core t url s).db.logs ++
        [moveLog sp.id t ln, moveLog sp.id t ln]) =
      s.db.logs ++
        ([scanLog sp.id t url] ++ [moveLog sp.id t ln, moveLog sp.id t ln]) := by
    rw [hcore]
    simp
  show moveEntries
      { spools := _, logs := (spool_scan_core t url s).db.logs ++
          [moveLog sp.id t ln, moveLog sp.id t ln],
        next_id := _ } = _
  rw [moveEntries_logs_append s.db _
    ([scanLog sp.id t url] ++ [moveLog sp.id t ln, moveLog sp.id t ln])
    hlogs2]
  simp [scanLog, moveLog, moveEntries]

/-! ### The claims -/

/-- Claim C1: the pairing window boundary is inclusive.  In every state, a spool
scan at instant 0 followed by a location scan at instant `t` performs an
automatic move to that location exactly when `t - 0 ≤ W` (in particular at
`t = W`), and performs none when `t > W`.  The same inclusive bound holds
in the other order (location first, then spool) from any state in which no
spool has been scanned yet. -/
theorem C1_pairing_window_boundary (cfg : Config) (s0 : AppState)
    (url loc : String) (t : ℤ) :
    ((t - 0 ≤ cfg.pair_window_seconds →
        autoMoveTo (handle_spool_scan cfg 0 url s0)
          (handle_location_scan cfg t loc (handle_spool_scan cfg 0 url s0))
          loc t) ∧
     (t - 0 > cfg.pair_window_seconds →
        noAutoMove (handle_spool_scan cfg 0 url s0)
          (handle_location_scan cfg t loc (handle_spool_scan cfg 0 url s0)))) ∧
    (s0.current_spool = none →
     ((t - 0 ≤ cfg.pair_window_seconds →
         autoMoveTo (handle_location_scan cfg 0 loc s0)
           (handle_spool_scan cfg t url (handle_location_scan cfg 0 loc s0))
           loc t) ∧
      (t - 0 > cfg.pair_window_seconds →
         noAutoMove (handle_location_scan cfg 0 loc s0)
           (handle_spool_scan cfg t url (handle_location_scan cfg 0 loc s0))))) := by
  obtain ⟨sp1, hc1, hg1, hts1⟩ := handle_spool_scan_out cfg 0 url s0
  constructor
  · constructor
    · intro hw
      have hw1 : t - (handle_spool_scan cfg 0 url s0).last_spool_scan_ts ≤
          cfg.pair_window_seconds := by
        rw [hts1]
        simpa using hw
      obtain ⟨hlogs, hcs, _, _, _, _⟩ :=
        location_pair_move cfg t loc (handle_spool_scan cfg 0 url s0) sp1 hc1 hg1 hw1
      refine ⟨⟨sp1.id, ?_⟩, ⟨_, hcs, rfl, rfl⟩⟩
      rw [moveEntries_logs_append _ _ _ hlogs, filter_moveLog_pair]
    · intro hgt
      have hno : ¬((handle_spool_scan cfg 0 url s0).current_spool.isSome ∧
          t - (handle_spool_scan cfg 0 url s0).last_spool_scan_ts ≤
            cfg.pair_window_seconds) := by
        rintro ⟨-, hle⟩
        rw [hts1] at hle
        omega
      rw [handle_location_scan_no_pair cfg t loc _ hno]
      rfl
  · intro h0
    have hno : ¬(s0.current_spool.isSome ∧
        0 - s0.last_spool_scan_ts ≤ cfg.pair_window_seconds) := by
      rintro ⟨hs, -⟩
      rw [h0] at hs
      exact absurd hs (by simp)
    have hs1 : handle_location_scan cfg 0 loc s0 =
        { s0 with last_location_scan := some (loc, 0),
                  status := "Location scanned: " ++ loc ++
                    ". (Scan spool to move.)" } :=
      handle_location_scan_no_pair cfg 0 loc s0 hno
    have hll1 : (handle_location_scan cfg 0 loc s0).last_location_scan =
        some (loc, 0) := by
      rw [hs1]
    obtain ⟨sp, rows, nid, hurl, hfind, hcore⟩ :=
      spool_scan_core_eq t url (handle_location_scan cfg 0 loc s0)
    have hg3 : get_spool_by_url
        (spool_scan_core t url (handle_location_scan cfg 0 loc s0)).db sp.url =
        some sp := by
      rw [hcore]
      unfold get_spool_by_url
      rw [hurl]
      exact hfind
    have hc3 : (spool_scan_core t url
        (handle_location_scan cfg 0 loc s0)).current_spool = some sp := by
      rw [hcore]
    have hm3 : noAutoMove (handle_location_scan cfg 0 loc s0)
        (spool_scan_core t url (handle_location_scan cfg 0 loc s0)) := by
      have hl3 : (spool_scan_core t url
          (handle_location_scan cfg 0 loc s0)).db.logs =
          (handle_location_scan cfg 0 loc s0).db.logs ++ [scanLog sp.id t url] := by
        rw [hcore]
      unfold noAutoMove
      rw [moveEntries_logs_append _ _ _ hl3, filter_scanLog, List.append_nil]
    constructor
    · intro hw
      have hw2 : t - (0 : ℤ) ≤ cfg.pair_window_seconds := by simpa using hw
      rw [handle_spool_scan_pair cfg t url _ loc 0 hll1 hw2]
      rw [apply_location_move_eq t loc _ sp hc3 hg3]
      refine ⟨⟨sp.id, ?_⟩, ⟨_, rfl, rfl, rfl⟩⟩
      have hlogs2 : ((spool_scan_core t url
          (handle_location_scan cfg 0 loc s0)).db.logs ++
            [moveLog sp.id t loc, moveLog sp.id t loc]) =
          (handle_location_scan cfg 0 loc s0).db.logs ++
            ([scanLog sp.id t url] ++ [moveLog sp.id t loc, moveLog sp.id t loc]) := by
        rw [hcore]
        simp
      show moveEntries
          { spools := _, logs := (spool_scan_core t url
              (handle_location_scan cfg 0 loc s0)).db.logs ++
                [moveLog sp.id t loc, moveLog sp.id t loc],
            next_id := _ } = _
      rw [moveEntries_logs_append (handle_location_scan cfg 0 loc s0).db _
        ([scanLog sp.id t url] ++ [moveLog sp.id t loc, moveLog sp.id t loc])
        hlogs2]
      simp [scanLog, moveLog, moveEntries]
    · intro hgt
      have hw2 : ¬(t - (0 : ℤ) ≤ cfg.pair_window_seconds) := by omega
      rw [handle_spool_scan_stale cfg t url _ loc 0 hll1 hw2]
      exact hm3

theorem C1_pairing_window_boundary_witness :
    autoMoveTo (handle_spool_scan defaultConfig 0 "fs://spool/abc-123" AppState.init)
      (handle_location_scan defaultConfig 10 "Dryer"
        (handle_spool_scan defaultConfig 0 "fs://spool/abc-123" AppState.init))
      "Dryer" 10 ∧
    noAutoMove (handle_spool_scan defaultConfig 0 "fs://spool/abc-123" AppState.init)
      (handle_location_scan defaultConfig 11 "Dryer"
        (handle_spool_scan defaultConfig 0 "fs://spool/abc-123" AppState.init)) ∧
    autoMoveTo (handle_location_scan defaultConfig 0 "Dryer" AppState.init)
      (handle_spool_scan defaultConfig 10 "fs://spool/abc-123"
        (handle_location_scan defaultConfig 0 "Dryer" AppState.init))
      "Dryer" 10 :=
  ⟨(C1_pairing_window_boundary defaultConfig AppState.init "fs://spool/abc-123"
      "Dryer" 10).1.1 (by decide),
   (C1_pairing_window_boundary defaultConfig AppState.init "fs://spool/abc-123"
      "Dryer" 11).1.2 (by decide),
   ((C1_pairing_window_boundary defaultConfig AppState.init "fs://spool/abc-123"
      "Dryer" 10).2 rfl).1 (by decide)⟩

/-- Claim C2: after every automatic pairing move completes (in either scan
order) `last_location_scan` is `none`; consequently, after a location scan
is consumed by a spool scan, a second spool scan arriving while the
consumed location scan's original window is still open triggers no further
move. -/
theorem C2_move_clears_last_location :
    (∀ (cfg : Config) (now : ℤ) (url : String) (s : AppState)
        (ln : String) (lt : ℤ),
      s.last_location_scan = some (ln, lt) →
      now - lt ≤ cfg.pair_window_seconds →
      (handle_spool_scan cfg now url s).last_location_scan = none) ∧
    (∀ (cfg : Config) (now : ℤ) (ln : String) (s : AppState),
      s.current_spool.isSome →
      now - s.last_spool_scan_ts ≤ cfg.pair_window_seconds →
      (handle_location_scan cfg now ln s).last_location_scan = none) ∧
    (∀ (cfg : Config) (s0 : AppState) (ln : String) (lt : ℤ)
        (url : String) (t0 : ℤ) (url2 : String) (t1 : ℤ),
      s0.current_spool = none →
      t0 - lt ≤ cfg.pair_window_seconds →
      t1 - lt ≤ cfg.pair_window_seconds →
      autoMoveTo (handle_location_scan cfg lt ln s0)
        (handle_spool_scan cfg t0 url (handle_location_scan cfg lt ln s0))
        ln t0 ∧
      noAutoMove
        (handle_spool_scan cfg t0 url (handle_location_scan cfg lt ln s0))
        (handle_spool_scan cfg t1 url2
          (handle_spool_scan cfg t0 url (handle_location_scan cfg lt ln s0)))) := by
  refine ⟨?_, ?_, ?_⟩
  · intro cfg now url s ln lt hll hw
    exact (spool_scan_pairs_fresh_location cfg now url s ln lt hll hw).2
  · intro cfg now ln s hc hw
    obtain ⟨sp, hsp⟩ := Option.isSome_iff_exists.mp hc
    rw [handle_location_scan_pair cfg now ln s hc hw]
    exact apply_location_move_clears now ln _ sp hsp
  · intro cfg s0 ln lt url t0 url2 t1 h0 hw0 hw1
    have hno : ¬(s0.current_spool.isSome ∧
        lt - s0.last_spool_scan_ts ≤ cfg.pair_window_seconds) := by
      rintro ⟨hs, -⟩
      rw [h0] at hs
      exact absurd hs (by simp)
    have hll1 : (handle_location_scan cfg lt ln s0).last_location_scan =
        some (ln, lt) := by
      rw [handle_location_scan_no_pair cfg lt ln s0 hno]
    obtain ⟨hmove, hclear⟩ := spool_scan_pairs_fresh_location cfg t0 url
      (handle_location_scan cfg lt ln s0) ln lt hll1 hw0
    exact ⟨hmove, spool_scan_no_location_noMove cfg t1 url2 _ hclear⟩

theorem C2_move_clears_last_location_witness :
    (handle_spool_scan defaultConfig 5 "fs://spool/abc-123"
      (handle_location_scan defaultConfig 0 "Dryer" AppState.init)).last_location_scan
        = none ∧
    noAutoMove
      (handle_spool_scan defaultConfig 5 "fs://spool/abc-123"
        (handle_location_scan defaultConfig 0 "Dryer" AppState.init))
      (handle_spool_scan defaultConfig 8 "fs://spool/xyz-9"
        (handle_spool_scan defaultConfig 5 "fs://spool/abc-123"
          (handle_location_scan defaultConfig 0 "Dryer" AppState.init))) ∧
    autoMoveTo (handle_location_scan defaultConfig 0 "Dryer" AppState.init)
      (handle_spool_scan defaultConfig 5 "fs://spool/abc-123"
        (handle_location_scan defaultConfig 0 "Dryer" AppState.init)) "Dryer" 5 := by
  have hp := (C2_move_clears_last_location.2.2 defaultConfig AppState.init
    "Dryer" 0 "fs://spool/abc-123" 5 "fs://spool/xyz-9" 8 rfl
    (by decide) (by decide))
  have hc := C2_move_clears_last_location.1 defaultConfig 5 "fs://spool/abc-123"
    (handle_location_scan defaultConfig 0 "Dryer" AppState.init) "Dryer" 0
    (by decide) (by decide)
  exact ⟨hc, hp.2, hp.1⟩

/-- Claim C3: a spool scanned at `t0` followed by two location scans at `t1` and
`t2`, both within the window of `t0` and with no other events in between,
yields one move per location scan — two moves in total (the spool scan
itself moves nothing). -/
theorem C3_double_location_scan (cfg : Config) (s0 : AppState)
    (url l1 l2 : String) (t0 t1 t2 : ℤ)
    (h0 : s0.current_spool = none) (h0l : s0.last_location_scan = none)
    (hw1 : t1 - t0 ≤ cfg.pair_window_seconds)
    (hw2 : t2 - t0 ≤ cfg.pair_window_seconds) :
    noAutoMove s0 (handle_spool_scan cfg t0 url s0) ∧
    autoMoveTo (handle_spool_scan cfg t0 url s0)
      (handle_location_scan cfg t1 l1 (handle_spool_scan cfg t0 url s0)) l1 t1 ∧
    autoMoveTo (handle_location_scan cfg t1 l1 (handle_spool_scan cfg t0 url s0))
      (handle_location_scan cfg t2 l2
        (handle_location_scan cfg t1 l1 (handle_spool_scan cfg t0 url s0)))
      l2 t2 := by
  obtain ⟨sp, hc1, hg1, hts1⟩ := handle_spool_scan_out cfg t0 url s0
  refine ⟨spool_scan_no_location_noMove cfg t0 url s0 h0l, ?_, ?_⟩
  · have hwin : t1 - (handle_spool_scan cfg t0 url s0).last_spool_scan_ts ≤
        cfg.pair_window_seconds := by
      rw [hts1]
      exact hw1
    obtain ⟨hlogs, hcs, -, -, -, -⟩ :=
      location_pair_move cfg t1 l1 (handle_spool_scan cfg t0 url s0) sp hc1 hg1 hwin
    refine ⟨⟨sp.id, ?_⟩, ⟨_, hcs, rfl, rfl⟩⟩
    rw [moveEntries_logs_append _ _ _ hlogs, filter_moveLog_pair]
  · have hwin : t1 - (handle_spool_scan cfg t0 url s0).last_spool_scan_ts ≤
        cfg.pair_window_seconds := by
      rw [hts1]
      exact hw1
    obtain ⟨-, hcs, hgs, -, hts2, -⟩ :=
      location_pair_move cfg t1 l1 (handle_spool_scan cfg t0 url s0) sp hc1 hg1 hwin
    have hwin2 : t2 - (handle_location_scan cfg t1 l1
        (handle_spool_scan cfg t0 url s0)).last_spool_scan_ts ≤
        cfg.pair_window_seconds := by
      rw [hts2, hts1]
      exact hw2
    obtain ⟨hlogs2, hcs2, -, -, -, -⟩ :=
      location_pair_move cfg t2 l2
        (handle_location_scan cfg t1 l1 (handle_spool_scan cfg t0 url s0))
        { sp with location := some l1, last_updated := some t1 } hcs hgs hwin2
    refine ⟨⟨sp.id, ?_⟩, ⟨_, hcs2, rfl, rfl⟩⟩
    rw [moveEntries_logs_append _ _ _ hlogs2, filter_moveLog_pair]

theorem C3_double_location_scan_witness :
    autoMoveTo (handle_spool_scan defaultConfig 0 "fs://spool/abc-123" AppState.init)
      (handle_location_scan defaultConfig 4 "Dryer"
        (handle_spool_scan defaultConfig 0 "fs://spool/abc-123" AppState.init))
      "Dryer" 4 ∧
    autoMoveTo
      (handle_location_scan defaultConfig 4 "Dryer"
        (handle_spool_scan defaultConfig 0 "fs://spool/abc-123" AppState.init))
      (handle_location_scan defaultConfig 9 "AMS Slot 1"
        (handle_location_scan defaultConfig 4 "Dryer"
          (handle_spool_scan defaultConfig 0 "fs://spool/abc-123" AppState.init)))
      "AMS Slot 1" 9 := by
  have h := C3_double_location_scan defaultConfig AppState.init
    "fs://spool/abc-123" "Dryer" "AMS Slot 1" 0 4 9 rfl rfl
    (by decide) (by decide)
  exact ⟨h.2.1, h.2.2⟩

/-- Claim C4 counterexample: in the §8 Dryer scenario (spool at t = 0, location
QR `fs://loc/dryer` at t = 5, window 10) the successful automatic pairing
appends TWO `move` log entries, not exactly one; the rest of the scenario
(location becomes "Dryer", `last_location_scan` unset) does hold. -/
theorem C4_counterexample_two_move_rows :
    (moveEntries dryerScenario2.db).length = 2 ∧
    (moveEntries dryerScenario2.db).length ≠ 1 ∧
    (get_spool_by_url dryerScenario2.db "fs://spool/abc-123").map Spool.location =
      some (some "Dryer") ∧
    dryerScenario2.last_location_scan = none := by decide

/-- Claim C4 (amended): every successful automatic pairing appends exactly two
log entries of kind `move`, both carrying the new location — one inserted
by the persistence update and one by the app-level logger — in addition to
updating the spool record's location and last-updated timestamp and
clearing the pending location scan. -/
theorem C4_amended_pairing_appends_two_move_rows (cfg : Config) (now : ℤ)
    (ln : String) (s : AppState) (sp : Spool)
    (hc : s.current_spool = some sp)
    (hg : get_spool_by_url s.db sp.url = some sp)
    (hw : now - s.last_spool_scan_ts ≤ cfg.pair_window_seconds) :
    (handle_location_scan cfg now ln s).db.logs =
      s.db.logs ++ [moveLog sp.id now ln, moveLog sp.id now ln] ∧
    get_spool_by_url (handle_location_scan cfg now ln s).db sp.url =
      some { sp with location := some ln, last_updated := some now } ∧
    (handle_location_scan cfg now ln s).last_location_scan = none := by
  obtain ⟨h1, -, h3, h4, -, -⟩ := location_pair_move cfg now ln s sp hc hg hw
  exact ⟨h1, h3, h4⟩

theorem C4_amended_pairing_appends_two_move_rows_witness :
    (handle_location_scan defaultConfig 5 "Dryer" dryerScenario1).db.logs =
      dryerScenario1.db.logs ++ [moveLog 1 5 "Dryer", moveLog 1 5 "Dryer"] ∧
    get_spool_by_url (handle_location_scan defaultConfig 5 "Dryer"
        dryerScenario1).db "fs://spool/abc-123" =
      some ⟨1, "fs://spool/abc-123", some "Abc 123", none, none,
        some "Dryer", none, some 5⟩ ∧
    (handle_location_scan defaultConfig 5 "Dryer"
        dryerScenario1).last_location_scan = none := by
  have h := C4_amended_pairing_appends_two_move_rows defaultConfig 5 "Dryer"
    dryerScenario1
    ⟨1, "fs://spool/abc-123", some "Abc 123", none, none, none, none, none⟩
    (by decide) (by decide) (by decide)
  exact h

/-- Claim C5 counterexample: after a spool scan at t = 0 and a stale location
scan at t = 20 (outside the window, so it stays pending), the manual move
at t = 25 does NOT clear `last_location_scan` — contrary to the claim that
the manual action behaves exactly as the automatic pairing path, which
does clear it — and it appends one `move` row, not the automatic path's
two. -/
theorem C5_counterexample_manual_move_keeps_last_location :
    manualMoveScenario2.last_location_scan = some ("AMS Slot 1", 20) ∧
    manualMoveScenario3.last_location_scan = some ("AMS Slot 1", 20) ∧
    manualMoveScenario3.last_location_scan ≠ none ∧
    (moveEntries manualMoveScenario3.db).length = 1 := by decide

/-- Claim C5 (amended): the manual "move" action with a current spool and a
chosen location updates the spool record's location and last-updated
timestamp (appending the persistence-level `move` log row), refreshes the
in-memory current spool from the store and sets the status — but unlike
the automatic pairing path it does not clear `last_location_scan` and does
not append the app-level second `move` row. -/
theorem C5_amended_manual_move (now : ℤ) (c : String) (s : AppState)
    (sp : Spool) (hc : s.current_spool = some sp)
    (hg : get_spool_by_url s.db sp.url = some sp) :
    on_move now (some c) s =
      { s with db := update_location s.db sp.id c now,
               current_spool :=
                 some { sp with location := some c, last_updated := some now },
               status := "Moved to: " ++ c } := by
  have hupd : get_spool_by_url (update_location s.db sp.id c now) sp.url =
      some { sp with location := some c, last_updated := some now } := by
    rw [get_spool_by_url_update_location, hg]
    simp
  simp only [on_move, hc]
  rw [hupd]

theorem C5_amended_manual_move_witness :
    on_move 25 (some "Dryer") manualMoveScenario2 =
      { manualMoveScenario2 with
          db := update_location manualMoveScenario2.db 1 "Dryer" 25,
          current_spool := some ⟨1, "fs://spool/abc-123", some "Abc 123",
            none, none, some "Dryer", none, some 25⟩,
          status := "Moved to: " ++ "Dryer" } := by
  have h := C5_amended_manual_move 25 "Dryer" manualMoveScenario2
    ⟨1, "fs://spool/abc-123", some "Abc 123", none, none, none, none, none⟩
    (by decide) (by decide)
  exact h

/-- Claim C6: with no spool ever scanned (`current_spool` unset), the shared
Move operation is a silent no-op — it returns the state unchanged, with no
persistence write, no log append and no state change — and a location scan
performs no move: it only records the pending location scan and sets the
"location scanned" status line. -/
theorem C6_no_current_spool (cfg : Config) (now : ℤ) (ln : String)
    (s : AppState) (h : s.current_spool = none) :
    apply_location_move now ln s = s ∧
    handle_location_scan cfg now ln s =
      { s with last_location_scan := some (ln, now),
               status := "Location scanned: " ++ ln ++
                 ". (Scan spool to move.)" } := by
  refine ⟨apply_location_move_no_spool now ln s h, ?_⟩
  apply handle_location_scan_no_pair
  rintro ⟨hs, -⟩
  rw [h] at hs
  exact absurd hs (by simp)

theorem C6_no_current_spool_witness :
    apply_location_move 0 "AMS Slot 1" AppState.init = AppState.init ∧
    handle_location_scan defaultConfig 0 "AMS Slot 1" AppState.init =
      { AppState.init with
          last_location_scan := some ("AMS Slot 1", 0),
          status := "Location scanned: " ++ "AMS Slot 1" ++
            ". (Scan spool to move.)" } :=
  C6_no_current_spool defaultConfig 0 "AMS Slot 1" AppState.init rfl

/-- Claim C7: scanning the never-seen spool identifier `fs://spool/abc-123`
creates a record whose name is the derived default "Abc 123" with null
location and weight (plus the `scan` log row); a subsequent manual weigh
of 250 g sets the weight to 250 with a fresh last-updated timestamp and
appends a `weigh` log entry carrying that weight. -/
theorem C7_unseen_spool_then_weigh :
    get_spool_by_url weighScenario1.db "fs://spool/abc-123" =
      some ⟨1, "fs://spool/abc-123", some "Abc 123", none, none, none,
        none, none⟩ ∧
    weighScenario1.db.logs = [scanLog 1 0 "fs://spool/abc-123"] ∧
    get_spool_by_url weighScenario2.db "fs://spool/abc-123" =
      some ⟨1, "fs://spool/abc-123", some "Abc 123", none, none, none,
        some 250, some 7⟩ ∧
    weighScenario2.db.logs =
      [scanLog 1 0 "fs://spool/abc-123", weighLog 1 7 250] := by decide

lemma debounce_step_time_ge (interval : ℚ) (h : 0 ≤ interval) (s : DebState)
    (f : Option String) : s.time ≤ (debounce_step interval s f).1.time := by
  unfold debounce_step
  cases f with
  | none => dsimp; linarith
  | some d =>
    dsimp only
    split_ifs <;> dsimp <;> linarith

lemma debounce_step_emit (interval : ℚ) (s : DebState) (f : Option String)
    (d : String) (τ : ℚ)
    (h : (debounce_step interval s f).2 = some (d, τ)) :
    f = some d ∧ s.last_val = some d ∧ 1 ≤ s.same_count ∧ τ = s.time ∧
    (debounce_step interval s f).1.time = s.time + 1 + interval := by
  unfold debounce_step at h ⊢
  cases f with
  | none => simp at h
  | some data =>
    dsimp only at h ⊢
    by_cases hd : some data = s.last_val
    · by_cases hc : 2 ≤ s.same_count + 1
      · simp only [hd, if_true, if_pos, hc] at h
        simp at h
        obtain ⟨hd2, ht⟩ := h
        subst hd2
        exact ⟨rfl, hd.symm, by omega, ht.symm, by simp [hd, hc]⟩
      · simp [hd, hc] at h
    · simp [hd] at h

lemma debounce_run_emit_time_ge (interval : ℚ) (h : 0 ≤ interval) :
    ∀ (fs : List (Option String)) (s : DebState),
      ∀ x ∈ (debounce_run interval s fs).2, s.time ≤ x.2 := by
  intro fs
  induction fs with
  | nil =>
    intro s x hx
    simp [debounce_run] at hx
  | cons f fs ih =>
    intro s x hx
    simp only [debounce_run, List.mem_append] at hx
    rcases hx with hx | hx
    · rw [Option.mem_toList, Option.mem_def] at hx
      obtain ⟨-, -, -, hτ, -⟩ := debounce_step_emit interval s f x.1 x.2 hx
      exact le_of_eq hτ.symm
    · exact le_trans (debounce_step_time_ge interval h s f)
        (ih (debounce_step interval s f).1 x hx)

lemma debounce_run_pairwise (interval : ℚ) (h : 0 ≤ interval) :
    ∀ (fs : List (Option String)) (s : DebState),
      List.Pairwise (fun a b => a.2 + 1 ≤ b.2)
        (debounce_run interval s fs).2 := by
  intro fs
  induction fs with
  | nil => intro s; simp [debounce_run]
  | cons f fs ih =>
    intro s
    simp only [debounce_run]
    cases he : (debounce_step interval s f).2 with
    | none => simpa using ih (debounce_step interval s f).1
    | some e =>
      simp only [Option.toList_some, List.singleton_append]
      refine List.pairwise_cons.mpr ⟨?_, ih (debounce_step interval s f).1⟩
      intro b hb
      obtain ⟨-, -, -, hτ, hnext⟩ :=
        debounce_step_emit interval s f e.1 e.2 (by rw [he])
      have hb2 := debounce_run_emit_time_ge interval h fs
        (debounce_step interval s f).1 b hb
      rw [hnext] at hb2
      have he2 : e.2 = s.time := hτ
      rw [he2]
      linarith

lemma debounce_no_adjacent_repeat (interval : ℚ) :
    ∀ (fs : List (Option String)) (lv : Option String) (sc : Nat) (t0 : ℚ),
      List.Chain' (fun a b => a ≠ b) (lv.toList ++ fs.filterMap id) →
      (debounce_run interval ⟨lv, sc, t0⟩ fs).2 = [] := by
  intro fs
  induction fs with
  | nil => intro lv sc t0 _; rfl
  | cons f fs ih =>
    intro lv sc t0 hch
    cases f with
    | none =>
      have hch2 : List.Chain' (fun a b => a ≠ b)
          (lv.toList ++ fs.filterMap id) := by
        simpa using hch
      simp only [debounce_run, debounce_step]
      simpa using ih lv sc (t0 + interval) hch2
    | some d =>
      cases lv with
      | none =>
        have hch2 : List.Chain' (fun a b => a ≠ b)
            ((some d).toList ++ fs.filterMap id) := by
          simpa using hch
        have hne : ¬(some d = (none : Option String)) := by simp
        simp only [debounce_run, debounce_step, hne, if_false, if_neg]
        simpa using ih (some d) 1 (t0 + interval) hch2
      | some v =>
        have hch0 : List.Chain' (fun a b => a ≠ b)
            (v :: d :: fs.filterMap id) := by
          simpa using hch
        rw [List.chain'_cons] at hch0
        obtain ⟨hvd, hch1⟩ := hch0
        have hch2 : List.Chain' (fun a b => a ≠ b)
            ((some d).toList ++ fs.filterMap id) := by
          simpa using hch1
        have hne : ¬(some d = (some v : Option String)) := by
          simp
          exact fun hdv => hvd hdv.symm
        simp only [debounce_run, debounce_step, hne, if_false, if_neg]
        simpa using ih (some d) 1 (t0 + interval) hch2

/-- Claim C8: the debouncer emits only when the same raw value is observed on
two consecutive decodes — an emitting poll's decode equals `last_val`
with a repeat count already at least 1 — so a raw stream with no two
adjacent equal decodes produces no emission at all; and after an emission
no further emission occurs for the 1-second cooldown (any later emission
is at least 1 second later). -/
theorem C8_debouncer_two_reads_then_cooldown (interval t0 : ℚ)
    (frames : List (Option String)) (h : 0 ≤ interval) :
    (∀ (s : DebState) (f : Option String) (d : String) (τ : ℚ),
        (debounce_step interval s f).2 = some (d, τ) →
        f = some d ∧ s.last_val = some d ∧ 1 ≤ s.same_count ∧ τ = s.time) ∧
    (List.Chain' (fun a b => a ≠ b) (frames.filterMap id) →
        (debounce_run interval (DebState.start t0) frames).2 = []) ∧
    List.Pairwise (fun a b => a.2 + 1 ≤ b.2)
      (debounce_run interval (DebState.start t0) frames).2 := by
  refine ⟨?_, ?_, debounce_run_pairwise interval h frames (DebState.start t0)⟩
  · intro s f d τ hh
    obtain ⟨h1, h2, h3, h4, -⟩ := debounce_step_emit interval s f d τ hh
    exact ⟨h1, h2, h3, h4⟩
  · intro hch
    exact debounce_no_adjacent_repeat interval frames none 0 t0 (by simpa using hch)

theorem C8_debouncer_two_reads_then_cooldown_witness :
    (debounce_run (1/4) (DebState.start 0)
      [some "a", some "b", some "a"]).2 = [] :=
  (C8_debouncer_two_reads_then_cooldown (1/4) 0
    [some "a", some "b", some "a"] (by norm_num)).2.1
    (by simp [List.chain'_cons, List.chain'_singleton])

/-- Claim C9: the classifier is total and deterministic — for every payload and
configured location list it returns the Location of the first entry whose
QR payload is exactly string-equal to the payload, and the payload itself
as a Spool identifier when no entry matches. -/
theorem C9_classifier_first_exact_match (locs : List LocEntry) (p : String) :
    classify_qr_payload locs p =
      (match locs.find? (fun l => p == l.qr) with
       | some l => ScanEvent.location l.name
       | none => ScanEvent.spool p) := by
  induction locs with
  | nil => rfl
  | cons a rest ih =>
    by_cases h : p = a.qr
    · simp [classify_qr_payload, h]
    · simp [classify_qr_payload, h, ih]

/-- Claim C10: a non-empty manually entered URL is processed exactly as a spool
scan of the stripped string at the current instant; in particular, entered
while a location scan is still fresh, it triggers the automatic move just
as a camera spool scan would. -/
theorem C10_manual_url_is_spool_scan (cfg : Config) (now : ℤ) (u : String)
    (s : AppState) (h : u ≠ "") :
    manual_url cfg now (some u) s = handle_spool_scan cfg now (pyStrip u) s ∧
    (∀ (ln : String) (lt : ℤ), s.last_location_scan = some (ln, lt) →
      now - lt ≤ cfg.pair_window_seconds →
      autoMoveTo s (manual_url cfg now (some u) s) ln now ∧
      (manual_url cfg now (some u) s).last_location_scan = none) := by
  have he : manual_url cfg now (some u) s =
      handle_spool_scan cfg now (pyStrip u) s := by
    simp only [manual_url]
    rw [if_pos h]
  refine ⟨he, ?_⟩
  intro ln lt hll hw
  rw [he]
  exact spool_scan_pairs_fresh_location cfg now (pyStrip u) s ln lt hll hw

theorem C10_manual_url_is_spool_scan_witness :
    manual_url defaultConfig 3 (some " fs://spool/abc-123 ")
        (handle_location_scan defaultConfig 0 "Dryer" AppState.init) =
      handle_spool_scan defaultConfig 3 (pyStrip " fs://spool/abc-123 ")
        (handle_location_scan defaultConfig 0 "Dryer" AppState.init) ∧
    autoMoveTo (handle_location_scan defaultConfig 0 "Dryer" AppState.init)
      (manual_url defaultConfig 3 (some " fs://spool/abc-123 ")
        (handle_location_scan defaultConfig 0 "Dryer" AppState.init))
      "Dryer" 3 := by
  have h := C10_manual_url_is_spool_scan defaultConfig 3
    " fs://spool/abc-123 "
    (handle_location_scan defaultConfig 0 "Dryer" AppState.init) (by decide)
  exact ⟨h.1, (h.2 "Dryer" 0 (by decide) (by decide)).1⟩

end FilamentStation
